import Mathlib

/-!
# Shallow embedding of `memory_store.py`

This file embeds the shared-memory / audit-trail store of the repository
(`src/memory_store.py`) and proves the testable properties of its
specification against that embedding.

Modelling conventions, fixed once for the whole file:

* A Python `datetime` is modelled by a `Nat`: the number of microseconds
  since the epoch of the process clock.  Python `datetime` values produced
  by `datetime.now()` are naive and totally ordered with sub-second
  (microsecond) precision, so the chronological order is the order on
  these numbers.  `datetime.isoformat()` is an injective encoding whose
  lexicographic string order coincides with the chronological order for
  naive datetimes (zero-padded fixed-width fields, fractional part omitted
  exactly when the microsecond count is 0, appended fractions only extend
  the string), and `datetime.fromisoformat` is its left inverse.  The
  SQLite backend stores `isoformat` strings in its `timestamp` column and
  compares them with SQL string comparison; by the order isomorphism just
  stated this is modelled by storing the `Nat` instant and comparing with
  `≤` on `Nat`.
* A JSON-serialisable Python value (the payloads kept in
  `extracted_values`) is modelled by the inductive type `Json` below.
  `json.dumps` is injective on this domain and `json.loads` is its left
  inverse, so the serialised TEXT column of the SQLite backend is modelled
  by the decoded `Json` value it holds.
* Python dictionaries (`InMemoryBackend.entries`, the Redis key space)
  are modelled by insertion-ordered association lists: assignment to an
  existing key replaces the value in place, assignment to a fresh key
  appends, and iteration follows the list order.
* `sqlite3` raises `IntegrityError` when an `INSERT` violates the
  `id TEXT PRIMARY KEY` constraint, and the `with sqlite3.connect(...)`
  block rolls the transaction back, so a failing store leaves the table
  unchanged; this is modelled by `Except String` results.
-/

/-- A JSON value: the payloads `memory_store.py` keeps in
`extracted_values` and serialises with `json.dumps` / `json.loads`.
Numbers are modelled by integers. -/
inductive Json where
  | null : Json
  | bool (b : Bool) : Json
  | num (n : Int) : Json
  | str (s : String) : Json
  | arr (elems : List Json) : Json
  | obj (fields : List (String × Json)) : Json

/-- `MemoryEntry` (memory_store.py, lines 9-17): the dataclass with fields
`source`, `type`, `timestamp`, `thread_id`, `conversation_id`,
`extracted_values`.  The last three default to `None`;
`extracted_values : Dict[str, Any] = None` is an optional string-keyed
mapping, modelled as an optional association list of JSON values. -/
structure MemoryEntry where
  source : String
  type : String
  timestamp : Nat
  thread_id : Option String := none
  conversation_id : Option String := none
  extracted_values : Option (List (String × Json)) := none

/-- The rendering of `entry.timestamp.timestamp()` inside the f-string
`f"{entry.source}_{entry.timestamp.timestamp()}"`: the instant as numeric
seconds since the epoch with its fractional part.  The exact digit string
Python's float `str` produces is irrelevant to every property below; what
the properties use is that the rendering is a fixed deterministic function
of the instant alone, which this model shares with the source. -/
def tsRender (t : Nat) : String :=
  toString (t / 1000000) ++ "." ++ toString (t % 1000000)

/-- The search criteria accepted by every backend's `search(**kwargs)`:
each of the six keyword arguments is optional (`none` models an absent
keyword / Python `None`). -/
structure Criteria where
  source : Option String := none
  type : Option String := none
  thread_id : Option String := none
  conversation_id : Option String := none
  start_time : Option Nat := none
  end_time : Option Nat := none

/-! ## InMemoryBackend (memory_store.py, lines 209-246) -/

/-- The state of `InMemoryBackend`: `self.entries: Dict[str, MemoryEntry]`,
an insertion-ordered dictionary from identifier to entry. -/
abbrev MemState := List (String × MemoryEntry)

/-- Python dictionary assignment `d[k] = v`: replace the value in place if
the key is present, append otherwise. -/
def dictInsert (st : MemState) (k : String) (v : MemoryEntry) : MemState :=
  if st.any (fun p => p.1 == k) then
    st.map (fun p => if p.1 == k then (k, v) else p)
  else
    st ++ [(k, v)]

/-- `InMemoryBackend.store` (lines 215-219): compute
`entry_id = f"{entry.source}_{entry.timestamp.timestamp()}"`, assign
`self.entries[entry_id] = entry`, return `entry_id`.  The result pairs the
new state with the returned identifier. -/
def inMemoryStore (st : MemState) (e : MemoryEntry) : MemState × String :=
  (dictInsert st (e.source ++ "_" ++ tsRender e.timestamp) e,
   e.source ++ "_" ++ tsRender e.timestamp)

/-- `InMemoryBackend.retrieve` (lines 221-223): `self.entries.get(entry_id)`. -/
def inMemoryRetrieve (st : MemState) (entry_id : String) : Option MemoryEntry :=
  (st.find? (fun p => p.1 == entry_id)).map (fun p => p.2)

/-- `InMemoryBackend._matches_criteria` (lines 232-246).  Each clause
`if criteria.get(k) and entry.f != criteria[k]: return False` contributes
one conjunct: when the criterion is absent (`none`) or falsy (the empty
string) the clause is skipped, otherwise the entry's field must equal it.
A `datetime` is always truthy, so the time bounds are only skipped when
absent.  Comparing an optional field (`entry.thread_id`) with a string
criterion succeeds only when the field is present and equal. -/
def memMatches (c : Criteria) (e : MemoryEntry) : Bool :=
  (match c.source with | some s => s == "" || e.source == s | none => true) &&
  (match c.type with | some s => s == "" || e.type == s | none => true) &&
  (match c.thread_id with | some s => s == "" || e.thread_id == some s | none => true) &&
  (match c.conversation_id with | some s => s == "" || e.conversation_id == some s | none => true) &&
  (match c.start_time with | some t => !(e.timestamp < t) | none => true) &&
  (match c.end_time with | some t => !(e.timestamp > t) | none => true)

/-- `InMemoryBackend.search` (lines 225-230): the entries of the
dictionary, in iteration (insertion) order, that match the criteria. -/
def inMemorySearch (c : Criteria) (st : MemState) : List MemoryEntry :=
  (st.map (fun p => p.2)).filter (memMatches c)

/-! ## SQLiteBackend (memory_store.py, lines 56-160) -/

/-- One row of the `memory_entries` table
(columns `id, source, type, timestamp, thread_id, conversation_id,
extracted_values`; `id` is the primary key).  The `timestamp` column holds
`entry.timestamp.isoformat()` and the `extracted_values` column holds
`json.dumps(entry.extracted_values or {})`; per the conventions above both
encodings are injective with the corresponding parser as left inverse, so
the row is represented by the decoded values. -/
structure Row where
  id : String
  source : String
  type : String
  timestamp : Nat
  thread_id : Option String
  conversation_id : Option String
  extracted_values : List (String × Json)

/-- The state of `SQLiteBackend`: the rows of `memory_entries` in
insertion (rowid) order. -/
abbrev Table := List Row

/-- `SQLiteBackend.store` (lines 81-98): compute
`entry_id = f"{entry.source}_{entry.timestamp.timestamp()}"` and `INSERT`
the row.  `id` is the primary key, so an existing row with the same id
makes the `INSERT` raise `sqlite3.IntegrityError`; the `with` block rolls
back and the table is unchanged.  On success the row is appended, with
`entry.extracted_values or {}` turning an absent payload into the empty
mapping, and the identifier is returned. -/
def sqliteStore (tbl : Table) (e : MemoryEntry) : Except String (String × Table) :=
  if tbl.any (fun r => r.id == e.source ++ "_" ++ tsRender e.timestamp) then
    .error "IntegrityError: UNIQUE constraint failed: memory_entries.id"
  else
    .ok (e.source ++ "_" ++ tsRender e.timestamp,
         tbl ++ [⟨e.source ++ "_" ++ tsRender e.timestamp, e.source, e.type,
                  e.timestamp, e.thread_id, e.conversation_id,
                  e.extracted_values.getD []⟩])

/-- The table after a `store` call, successful or not: a failing `INSERT`
leaves the table unchanged (the exception propagates to the caller). -/
def sqliteStoreState (tbl : Table) (e : MemoryEntry) : Table :=
  match sqliteStore tbl e with
  | .ok (_, tbl') => tbl'
  | .error _ => tbl

/-- The `MemoryEntry` the SQLite backend reconstructs from a row
(lines 111-118 and 150-158): `datetime.fromisoformat` of the stored
timestamp string and `json.loads` of the stored payload text, the decoded
values of the row per the conventions above. -/
def decodeRow (r : Row) : MemoryEntry :=
  ⟨r.source, r.type, r.timestamp, r.thread_id, r.conversation_id,
   some r.extracted_values⟩

/-- `SQLiteBackend.retrieve` (lines 100-118): `SELECT` the row with the
given id (there is at most one: `id` is the primary key; the model takes
the first), `None` when absent. -/
def sqliteRetrieve (tbl : Table) (entry_id : String) : Option MemoryEntry :=
  (tbl.find? (fun r => r.id == entry_id)).map decodeRow

/-- The `WHERE` clause `SQLiteBackend.search` (lines 120-147) builds: one
condition per truthy keyword argument (`if kwargs.get(k):` skips absent
and empty-string values; a `datetime` is always truthy).  `source = ?`
etc. are exact string comparisons; `thread_id = ?` is false on a `NULL`
column; `timestamp >= ?` / `timestamp <= ?` compare `isoformat` strings,
which per the conventions above is the chronological comparison of the
instants. -/
def rowMatches (c : Criteria) (r : Row) : Bool :=
  (match c.source with | some s => s == "" || r.source == s | none => true) &&
  (match c.type with | some s => s == "" || r.type == s | none => true) &&
  (match c.thread_id with | some s => s == "" || r.thread_id == some s | none => true) &&
  (match c.conversation_id with | some s => s == "" || r.conversation_id == some s | none => true) &&
  (match c.start_time with | some t => decide (t ≤ r.timestamp) | none => true) &&
  (match c.end_time with | some t => decide (r.timestamp ≤ t) | none => true)

/-- `SQLiteBackend.search` (lines 120-160): the rows satisfying every
condition of the built `WHERE` clause, decoded, in table order. -/
def sqliteSearch (c : Criteria) (tbl : Table) : List MemoryEntry :=
  (tbl.filter (rowMatches c)).map decodeRow

/-! ## RedisBackend (memory_store.py, lines 162-207)

The Redis server itself is outside the repository; its key-value
behaviour, as the spec describes it (field-sets stored under the
namespaced key `"memory:<identifier>"`, enumerated by `keys("memory:*")`),
is the ordinary dictionary model.  `to_dict` / `from_dict` round-trip an
entry through its field dictionary, identity on this model's domain. -/

/-- The state of `RedisBackend`: the hashes stored under `memory:<id>`
keys, keyed here by the identifier (the key is `"memory:" ++` the
identifier), each holding an entry's field dictionary. -/
abbrev RedisState := List (String × MemoryEntry)

/-- `RedisBackend.store` (lines 168-173): compute
`entry_id = f"{entry.source}_{entry.timestamp.timestamp()}"`, write the
entry's field dictionary under `memory:<entry_id>` (overwriting any
previous hash), return `entry_id`. -/
def redisStore (st : RedisState) (e : MemoryEntry) : RedisState × String :=
  (dictInsert st (e.source ++ "_" ++ tsRender e.timestamp) e,
   e.source ++ "_" ++ tsRender e.timestamp)

/-- `RedisBackend.retrieve` (lines 175-180): `hgetall` of
`memory:<entry_id>`, `None` when the hash is absent, otherwise the entry
rebuilt by `MemoryEntry.from_dict`. -/
def redisRetrieve (st : RedisState) (entry_id : String) : Option MemoryEntry :=
  (st.find? (fun p => p.1 == entry_id)).map (fun p => p.2)

/-- `RedisBackend._matches_criteria` (lines 193-207): textually the same
predicate as `InMemoryBackend._matches_criteria`, duplicated in the
source and therefore duplicated here. -/
def redisMatches (c : Criteria) (e : MemoryEntry) : Bool :=
  (match c.source with | some s => s == "" || e.source == s | none => true) &&
  (match c.type with | some s => s == "" || e.type == s | none => true) &&
  (match c.thread_id with | some s => s == "" || e.thread_id == some s | none => true) &&
  (match c.conversation_id with | some s => s == "" || e.conversation_id == some s | none => true) &&
  (match c.start_time with | some t => !(e.timestamp < t) | none => true) &&
  (match c.end_time with | some t => !(e.timestamp > t) | none => true)

/-- The identifier `RedisBackend.search` reconstructs from a stored key
(line 188): `key.decode().split(":")[1]` on the key
`"memory:" ++ entry_id` is the segment of the key between its first and
second colon, i.e. the prefix of the identifier up to its first colon —
the whole identifier only when it contains no colon. -/
def redisKeyId (entry_id : String) : String :=
  String.mk (entry_id.toList.takeWhile (fun ch => !(ch == ':')))

/-- `RedisBackend._matches_criteria` as `search` actually invokes it: the
retrieved `entry` may be `None` when the reconstructed identifier keys no
hash.  On a real entry it is the predicate of lines 193-207
(`redisMatches`); on `None`, the first clause whose criterion is truthy
evaluates an attribute of `None` and raises `AttributeError`, and when
every criterion is absent or falsy all clauses are skipped and `True` is
returned. -/
def redisMatchesOpt (c : Criteria) (entry : Option MemoryEntry) :
    Except String Bool :=
  match entry with
  | some e => .ok (redisMatches c e)
  | none =>
    if (match c.source with | some s => !(s == "") | none => false) ||
       (match c.type with | some s => !(s == "") | none => false) ||
       (match c.thread_id with | some s => !(s == "") | none => false) ||
       (match c.conversation_id with | some s => !(s == "") | none => false) ||
       c.start_time.isSome || c.end_time.isSome then
      .error "AttributeError: NoneType has no attribute"
    else
      .ok true

/-- The loop of `RedisBackend.search` (lines 186-191) over the enumerated
keys: reconstruct each identifier with the colon split, retrieve it
(possibly `None`), test the criteria (which can raise on `None`), and
collect the retrieved values of the accepted keys in order; a raised
`AttributeError` aborts the whole search. -/
def redisSearchLoop (c : Criteria) (st : RedisState) :
    List String → Except String (List (Option MemoryEntry))
  | [] => .ok []
  | entry_id :: rest =>
    match redisMatchesOpt c (redisRetrieve st (redisKeyId entry_id)) with
    | .error msg => .error msg
    | .ok true =>
      match redisSearchLoop c st rest with
      | .error msg => .error msg
      | .ok entries =>
        .ok (redisRetrieve st (redisKeyId entry_id) :: entries)
    | .ok false => redisSearchLoop c st rest

/-- `RedisBackend.search` (lines 182-191): enumerate every `memory:*`
key (in state order, the model's enumeration order), split each key on
`":"` and take segment 1, retrieve that reconstructed identifier and
keep the retrieved value — possibly `None` — whenever the criteria
accept it.  The result is the collected list, or the `AttributeError`
the criteria check raises on a `None` entry. -/
def redisSearch (c : Criteria) (st : RedisState) :
    Except String (List (Option MemoryEntry)) :=
  redisSearchLoop c st (st.map (fun p => p.1))

/-! ## SharedMemory facade (memory_store.py, lines 248-288) -/

/-- `SharedMemory.store` (lines 265-280) over the in-memory backend: build
a `MemoryEntry` from the arguments with `timestamp = datetime.now()` (the
clock reading `now` is a parameter of the model) and delegate to the
backend.  No argument is validated. -/
def sharedStoreMem (st : MemState) (source type : String)
    (extracted_values : Option (List (String × Json)))
    (thread_id conversation_id : Option String) (now : Nat) :
    MemState × String :=
  inMemoryStore st
    ⟨source, type, now, thread_id, conversation_id, extracted_values⟩

/-- `SharedMemory.store` over the SQLite backend; again no argument is
validated before delegation. -/
def sharedStoreSqlite (tbl : Table) (source type : String)
    (extracted_values : Option (List (String × Json)))
    (thread_id conversation_id : Option String) (now : Nat) :
    Except String (String × Table) :=
  sqliteStore tbl
    ⟨source, type, now, thread_id, conversation_id, extracted_values⟩

/-- `SharedMemory.store` over the Redis backend; again no argument is
validated before delegation. -/
def sharedStoreRedis (st : RedisState) (source type : String)
    (extracted_values : Option (List (String × Json)))
    (thread_id conversation_id : Option String) (now : Nat) :
    RedisState × String :=
  redisStore st
    ⟨source, type, now, thread_id, conversation_id, extracted_values⟩

/-! ## Claim-statement vocabulary -/

/-- The derived identifier of an entry, `"<source>_<seconds.fraction>"`:
the expression each backend's `store` computes. -/
def entryId (e : MemoryEntry) : String :=
  e.source ++ "_" ++ tsRender e.timestamp

/-- The row `SQLiteBackend.store` appends for an entry (on a successful
`INSERT`). -/
def encodeRow (e : MemoryEntry) : Row :=
  ⟨entryId e, e.source, e.type, e.timestamp, e.thread_id, e.conversation_id,
   e.extracted_values.getD []⟩

/-- An entry valid per the spec's data model (§3): `source` and `type`
non-empty and `extracted_values` an actual mapping (the spec's
`extracted_values` is a mapping defaulting to the empty mapping; the
Python `None` placeholder is not a mapping). -/
def ValidEntry (e : MemoryEntry) : Prop :=
  e.source ≠ "" ∧ e.type ≠ "" ∧ e.extracted_values ≠ none

/-- Storing a sequence of entries into the in-memory backend, first to
last. -/
def inMemoryStoreList (es : List MemoryEntry) (st : MemState) : MemState :=
  es.foldl (fun s e => (inMemoryStore s e).1) st

/-- Storing a sequence of entries into the SQLite backend, first to last;
a store whose `INSERT` fails leaves the table unchanged (the exception is
the caller's business). -/
def sqliteStoreList (es : List MemoryEntry) (tbl : Table) : Table :=
  es.foldl sqliteStoreState tbl

/-- Criteria as the spec reads them (§4.1), stated from the spec's words:
an entry satisfies the criteria when every supplied criterion holds of it
— `source`, `type`, `thread_id`, `conversation_id` by exact equality and
`start_time` / `end_time` as inclusive bounds on `timestamp` — and
omitted criteria impose no filter. -/
def SpecMatches (c : Criteria) (e : MemoryEntry) : Prop :=
  (∀ s, c.source = some s → e.source = s) ∧
  (∀ s, c.type = some s → e.type = s) ∧
  (∀ s, c.thread_id = some s → e.thread_id = some s) ∧
  (∀ s, c.conversation_id = some s → e.conversation_id = some s) ∧
  (∀ t, c.start_time = some t → t ≤ e.timestamp) ∧
  (∀ t, c.end_time = some t → e.timestamp ≤ t)

/-- The criteria with every criterion bound to the empty string replaced
by an absent one (used to state that the backends treat the two alike). -/
def blankToNone (c : Criteria) : Criteria where
  source := if c.source = some "" then none else c.source
  type := if c.type = some "" then none else c.type
  thread_id := if c.thread_id = some "" then none else c.thread_id
  conversation_id :=
    if c.conversation_id = some "" then none else c.conversation_id
  start_time := c.start_time
  end_time := c.end_time

/-! ## Helper lemmas -/

theorem filter_of_map {α β : Type} (f : α → β) (p : β → Bool) (l : List α) :
    (l.map f).filter p = (l.filter fun a => p (f a)).map f := by
  induction l with
  | nil => rfl
  | cons hd tl ih => by_cases h : p (f hd) <;> simp [List.filter, h, ih]

/-- A string-criterion clause of the matching predicates ignores the
replacement of an empty-string criterion by an absent one. -/
theorem blank_clause {α : Type} (o : Option String) (t : String → α)
    (d : α) (h : t "" = d) :
    (match (if o = some "" then none else o) with
      | some s => t s | none => d) =
    (match o with | some s => t s | none => d) := by
  by_cases hb : o = some ""
  · subst hb; simp [h]
  · simp [hb]

theorem memMatches_blankToNone (c : Criteria) (e : MemoryEntry) :
    memMatches (blankToNone c) e = memMatches c e := by
  obtain ⟨os, ot, oth, oc, ost, oet⟩ := c
  simp only [memMatches, blankToNone]
  rw [blank_clause os (fun s => s == "" || e.source == s) true (by simp),
      blank_clause ot (fun s => s == "" || e.type == s) true (by simp),
      blank_clause oth (fun s => s == "" || e.thread_id == some s) true (by simp),
      blank_clause oc (fun s => s == "" || e.conversation_id == some s) true (by simp)]

theorem redisMatches_blankToNone (c : Criteria) (e : MemoryEntry) :
    redisMatches (blankToNone c) e = redisMatches c e := by
  obtain ⟨os, ot, oth, oc, ost, oet⟩ := c
  simp only [redisMatches, blankToNone]
  rw [blank_clause os (fun s => s == "" || e.source == s) true (by simp),
      blank_clause ot (fun s => s == "" || e.type == s) true (by simp),
      blank_clause oth (fun s => s == "" || e.thread_id == some s) true (by simp),
      blank_clause oc (fun s => s == "" || e.conversation_id == some s) true (by simp)]

theorem rowMatches_blankToNone (c : Criteria) (r : Row) :
    rowMatches (blankToNone c) r = rowMatches c r := by
  obtain ⟨os, ot, oth, oc, ost, oet⟩ := c
  simp only [rowMatches, blankToNone]
  rw [blank_clause os (fun s => s == "" || r.source == s) true (by simp),
      blank_clause ot (fun s => s == "" || r.type == s) true (by simp),
      blank_clause oth (fun s => s == "" || r.thread_id == some s) true (by simp),
      blank_clause oc (fun s => s == "" || r.conversation_id == some s) true (by simp)]

theorem redisMatchesOpt_blankToNone (c : Criteria) (x : Option MemoryEntry) :
    redisMatchesOpt (blankToNone c) x = redisMatchesOpt c x := by
  cases x with
  | some e => simp only [redisMatchesOpt, redisMatches_blankToNone]
  | none =>
    unfold redisMatchesOpt
    obtain ⟨os, ot, oth, oc, ost, oet⟩ := c
    simp only [blankToNone]
    rw [blank_clause os (fun s => !(s == "")) false (by simp),
        blank_clause ot (fun s => !(s == "")) false (by simp),
        blank_clause oth (fun s => !(s == "")) false (by simp),
        blank_clause oc (fun s => !(s == "")) false (by simp)]

theorem redisSearchLoop_blankToNone (c : Criteria) (st : RedisState)
    (ks : List String) :
    redisSearchLoop (blankToNone c) st ks = redisSearchLoop c st ks := by
  induction ks with
  | nil => rfl
  | cons k ks ih =>
    simp only [redisSearchLoop]
    rw [redisMatchesOpt_blankToNone, ih]

/-- In a duplicate-free key space, looking a stored pair's key up finds
that pair. -/
theorem find?_of_nodup_mem (st : MemState) (p : String × MemoryEntry)
    (hnd : (st.map Prod.fst).Nodup) (hp : p ∈ st) :
    st.find? (fun q => q.1 == p.1) = some p := by
  induction st with
  | nil => cases hp
  | cons hd tl ih =>
    simp only [List.map_cons, List.nodup_cons] at hnd
    rcases List.mem_cons.mp hp with he | ht
    · subst he
      simp [List.find?]
    · have hne : ¬hd.1 = p.1 := by
        intro hc
        exact hnd.1 (hc ▸ List.mem_map_of_mem Prod.fst ht)
      rw [List.find?_cons_of_neg _ (by simpa using hne)]
      exact ih hnd.2 ht

/-- When every enumerated key retrieves the pair it belongs to (no colon
mangling, no duplicate keys), the Redis search loop raises nothing and
collects exactly the stored values accepted by the criteria predicate. -/
theorem redisSearchLoop_keys (c : Criteria) (st : RedisState) :
    ∀ sub : RedisState,
      (∀ p ∈ sub, redisRetrieve st (redisKeyId p.1) = some p.2) →
      redisSearchLoop c st (sub.map (fun p => p.1)) =
        .ok (((sub.map (fun p => p.2)).filter (redisMatches c)).map some) := by
  intro sub
  induction sub with
  | nil => intro _; rfl
  | cons hd tl ih =>
    intro h
    have hhd := h hd (by simp)
    have htl := ih (fun p hp => h p (by simp [hp]))
    simp only [List.map_cons, redisSearchLoop]
    rw [hhd]
    by_cases hm : redisMatches c hd.2 <;>
      simp [redisMatchesOpt, hm, htl, List.filter_cons]

/-- On a duplicate-free state whose identifiers the key split leaves
intact, every key of the state retrieves its own entry. -/
theorem redisRetrieve_keyId (rst : RedisState)
    (hnd : (rst.map Prod.fst).Nodup)
    (hcol : ∀ p ∈ rst, redisKeyId p.1 = p.1) :
    ∀ p ∈ rst, redisRetrieve rst (redisKeyId p.1) = some p.2 := by
  intro p hp
  rw [hcol p hp]
  unfold redisRetrieve
  rw [find?_of_nodup_mem rst p hnd hp]
  rfl

/-! ## Claims -/

/-- C6: Empty-criteria search: on every backend state, `search` invoked
with no criteria at all returns exactly the stored entries — the
dictionary's entries for the in-memory backend, the decoded rows of the
table for the SQLite backend, and, for the Redis backend, the stored
hashes provided the key space is well formed (no duplicate keys) and the
identifiers contain no colon, so that the `split(":")[1]` of each key
reconstructs the identifier it was stored under. -/
theorem c6_empty_criteria_search (st : MemState) (tbl : Table)
    (rst : RedisState) (hnd : (rst.map Prod.fst).Nodup)
    (hcol : ∀ p ∈ rst, redisKeyId p.1 = p.1) :
    inMemorySearch {} st = st.map (fun p => p.2) ∧
    sqliteSearch {} tbl = tbl.map decodeRow ∧
    redisSearch {} rst = .ok (rst.map (fun p => some p.2)) := by
  refine ⟨?_, ?_, ?_⟩
  · exact List.filter_eq_self.mpr (fun a _ => rfl)
  · unfold sqliteSearch
    have hf : tbl.filter (rowMatches {}) = tbl :=
      List.filter_eq_self.mpr (fun a _ => rfl)
    rw [hf]
  · unfold redisSearch
    rw [redisSearchLoop_keys {} rst rst (redisRetrieve_keyId rst hnd hcol)]
    have hf2 : (rst.map (fun p => p.2)).filter (redisMatches {}) =
        rst.map (fun p => p.2) :=
      List.filter_eq_self.mpr (fun a _ => rfl)
    rw [hf2, List.map_map]
    rfl

/-- C6 witness: the empty-criteria search at concrete one-entry backend
states (the Redis identifier `"a_0.0"` contains no colon). -/
theorem c6_empty_criteria_search_witness :
    inMemorySearch {} [("a_0.0", ⟨"a", "t", 0, none, none, none⟩)] =
      [("a_0.0", (⟨"a", "t", 0, none, none, none⟩ : MemoryEntry))].map
        (fun p => p.2) ∧
    sqliteSearch {} [⟨"a_0.0", "a", "t", 0, none, none, []⟩] =
      [(⟨"a_0.0", "a", "t", 0, none, none, []⟩ : Row)].map decodeRow ∧
    redisSearch {} [("a_0.0", ⟨"a", "t", 0, none, none, none⟩)] =
      .ok ([("a_0.0", (⟨"a", "t", 0, none, none, none⟩ : MemoryEntry))].map
        (fun p => some p.2)) :=
  c6_empty_criteria_search [("a_0.0", ⟨"a", "t", 0, none, none, none⟩)]
    [⟨"a_0.0", "a", "t", 0, none, none, []⟩]
    [("a_0.0", ⟨"a", "t", 0, none, none, none⟩)]
    (by simp)
    (by intro p hp
        simp only [List.mem_singleton] at hp
        subst hp
        rfl)

/-- C7: Retrieve on an unknown identifier: on every backend state
holding no entry under identifier `i` (in particular after any sequence
of stores none of which produced `i`), `retrieve i` returns `None`; the
retrieval functions are total, so no error is raised. -/
theorem c7_retrieve_unknown (st : MemState) (tbl : Table) (rst : RedisState)
    (i : String) (h1 : ∀ p ∈ st, p.1 ≠ i) (h2 : ∀ r ∈ tbl, r.id ≠ i)
    (h3 : ∀ p ∈ rst, p.1 ≠ i) :
    inMemoryRetrieve st i = none ∧ sqliteRetrieve tbl i = none ∧
    redisRetrieve rst i = none := by
  refine ⟨?_, ?_, ?_⟩
  · unfold inMemoryRetrieve
    rw [List.find?_eq_none.mpr (fun p hp => by simpa using h1 p hp)]
    rfl
  · unfold sqliteRetrieve
    rw [List.find?_eq_none.mpr (fun r hr => by simpa using h2 r hr)]
    rfl
  · unfold redisRetrieve
    rw [List.find?_eq_none.mpr (fun p hp => by simpa using h3 p hp)]
    rfl

/-- C7 witness: `retrieve("nonexistent_id")` on empty backends
returns `None`. -/
theorem c7_retrieve_unknown_witness :
    inMemoryRetrieve [] "nonexistent_id" = none ∧
    sqliteRetrieve [] "nonexistent_id" = none ∧
    redisRetrieve [] "nonexistent_id" = none :=
  c7_retrieve_unknown [] [] [] "nonexistent_id" (by simp) (by simp) (by simp)

/-- C8: Identifier derivation: on every backend the identifier
returned by `store` is exactly `source ++ "_" ++` the timestamp rendered
as numeric seconds with fractional part — an expression in the entry's
`source` and `timestamp` alone, identical across the three backends. -/
theorem c8_identifier_derivation (st : MemState) (rst : RedisState)
    (tbl : Table) (e : MemoryEntry) (i : String) (tbl' : Table)
    (h : sqliteStore tbl e = .ok (i, tbl')) :
    (inMemoryStore st e).2 = e.source ++ "_" ++ tsRender e.timestamp ∧
    (redisStore rst e).2 = e.source ++ "_" ++ tsRender e.timestamp ∧
    i = e.source ++ "_" ++ tsRender e.timestamp := by
  refine ⟨rfl, rfl, ?_⟩
  unfold sqliteStore at h
  by_cases hc : tbl.any (fun r => r.id == e.source ++ "_" ++ tsRender e.timestamp)
  · simp [hc] at h
  · simp [hc] at h
    exact h.1.symm

/-- C8 witness: The derivation at a concrete entry stored into all
three (initially empty) backends. -/
theorem c8_identifier_derivation_witness :
    (inMemoryStore [] ⟨"a", "t", 0, none, none, none⟩).2 =
      "a" ++ "_" ++ tsRender 0 ∧
    (redisStore [] ⟨"a", "t", 0, none, none, none⟩).2 =
      "a" ++ "_" ++ tsRender 0 ∧
    "a_0.0" = "a" ++ "_" ++ tsRender 0 :=
  c8_identifier_derivation [] [] [] ⟨"a", "t", 0, none, none, none⟩
    "a_0.0" [⟨"a_0.0", "a", "t", 0, none, none, []⟩] (by rfl)

/-- C10: Empty-string criteria are treated as omitted: on every backend
state, searching with any criterion bound to the empty string returns
exactly what searching with that criterion absent returns (so no filter
is applied for it and the remaining criteria alone decide).  For the
Redis backend the two searches agree on every state outcome for outcome:
the empty-string criterion is as falsy as an absent one in both the
per-entry clauses and the `None`-entry `AttributeError` path, so even
the raising behaviour is identical. -/
theorem c10_blank_criteria (c : Criteria) (st : MemState) (tbl : Table)
    (rst : RedisState) :
    inMemorySearch c st = inMemorySearch (blankToNone c) st ∧
    sqliteSearch c tbl = sqliteSearch (blankToNone c) tbl ∧
    redisSearch c rst = redisSearch (blankToNone c) rst := by
  refine ⟨?_, ?_, ?_⟩
  · unfold inMemorySearch
    exact (List.filter_congr (fun e _ => memMatches_blankToNone c e)).symm
  · unfold sqliteSearch
    rw [List.filter_congr (fun r _ => (rowMatches_blankToNone c r).symm)]
  · unfold redisSearch
    exact (redisSearchLoop_blankToNone c rst (rst.map (fun p => p.1))).symm

/-- Looking up the key just assigned by a dictionary assignment finds the
assigned value. -/
theorem find?_dictInsert (st : MemState) (k : String) (v : MemoryEntry) :
    (dictInsert st k v).find? (fun p => p.1 == k) = some (k, v) := by
  unfold dictInsert
  by_cases h : st.any (fun p => p.1 == k) = true
  · rw [if_pos h, List.find?_map]
    have hp : ((fun p : String × MemoryEntry => p.1 == k) ∘
        (fun p => if p.1 == k then (k, v) else p)) = (fun p => p.1 == k) := by
      funext p
      by_cases hh : p.1 = k <;> simp [Function.comp, hh]
    rw [hp]
    obtain ⟨p0, hp0, hk⟩ := List.any_eq_true.mp h
    cases hq : st.find? (fun p => p.1 == k) with
    | none =>
      rw [List.find?_eq_none] at hq
      exact absurd hk (hq p0 hp0)
    | some q =>
      have hqk := List.find?_some hq
      have hqk' : q.1 = k := by simpa using hqk
      simp [hqk']
  · rw [if_neg h, List.find?_append]
    have h1 : st.find? (fun p => p.1 == k) = none :=
      List.find?_eq_none.mpr
        (fun p hp hc => h (List.any_eq_true.mpr ⟨p, hp, hc⟩))
    rw [h1]
    simp [List.find?]

/-- Looking up a key other than the one just assigned is unaffected by
the assignment. -/
theorem find?_dictInsert_ne (st : MemState) (k : String) (v : MemoryEntry)
    (i : String) (h : k ≠ i) :
    (dictInsert st k v).find? (fun p => p.1 == i) =
      st.find? (fun p => p.1 == i) := by
  unfold dictInsert
  by_cases ha : st.any (fun p => p.1 == k) = true
  · rw [if_pos ha, List.find?_map]
    have hp : ((fun p : String × MemoryEntry => p.1 == i) ∘
        (fun p => if p.1 == k then (k, v) else p)) = (fun p => p.1 == i) := by
      funext p
      by_cases hh : p.1 = k <;> simp [Function.comp, hh, h]
    rw [hp]
    cases hq : st.find? (fun p => p.1 == i) with
    | none => rfl
    | some q =>
      have hqi' := List.find?_some hq
      have hqi : q.1 = i := by simpa using hqi'
      have hqk : ¬q.1 = k := by
        rw [hqi]
        exact fun hc => h hc.symm
      simp [hqk]
  · rw [if_neg ha, List.find?_append]
    have h2 : List.find? (fun p => p.1 == i) [(k, v)] = none := by
      have hki : (k == i) = false := by simp [h]
      simp [List.find?, hki]
    rw [h2]
    cases st.find? (fun p => p.1 == i) <;> rfl

/-- C2: Round-trip: for every backend state and every valid entry
`E`, `store(E)` succeeds (for SQLite: whenever the derived identifier is
not already a row key, the only case in which `store` returns an
identifier at all) and `retrieve` of the returned identifier yields an
entry equal to `E` in every field — `source`, `type`, `thread_id`,
`conversation_id`, `extracted_values`, and the very `timestamp` the entry
carried at store time. -/
theorem c2_round_trip (st : MemState) (rst : RedisState) (tbl : Table)
    (e : MemoryEntry) (hv : ValidEntry e)
    (hfresh : ∀ r ∈ tbl, r.id ≠ entryId e) :
    inMemoryRetrieve (inMemoryStore st e).1 (inMemoryStore st e).2 = some e ∧
    redisRetrieve (redisStore rst e).1 (redisStore rst e).2 = some e ∧
    sqliteStore tbl e = .ok (entryId e, sqliteStoreState tbl e) ∧
    sqliteRetrieve (sqliteStoreState tbl e) (entryId e) = some e := by
  obtain ⟨-, -, hev⟩ := hv
  obtain ⟨m, hm⟩ := Option.ne_none_iff_exists'.mp hev
  simp only [entryId] at hfresh ⊢
  have hany :
      (tbl.any fun r => r.id == e.source ++ "_" ++ tsRender e.timestamp)
        = false := by
    rw [List.any_eq_false]
    intro r hr
    simpa using hfresh r hr
  have hstore : sqliteStore tbl e =
      .ok (e.source ++ "_" ++ tsRender e.timestamp, tbl ++ [encodeRow e]) := by
    unfold sqliteStore
    rw [if_neg (by simp [hany])]
    rfl
  have hstate : sqliteStoreState tbl e = tbl ++ [encodeRow e] := by
    unfold sqliteStoreState
    rw [hstore]
  refine ⟨?_, ?_, ?_, ?_⟩
  · unfold inMemoryRetrieve inMemoryStore
    rw [find?_dictInsert]
    rfl
  · unfold redisRetrieve redisStore
    rw [find?_dictInsert]
    rfl
  · rw [hstore, hstate]
  · rw [hstate]
    unfold sqliteRetrieve
    rw [List.find?_append,
        List.find?_eq_none.mpr (fun r hr => by simpa using hfresh r hr)]
    rw [List.find?_cons_of_pos _ (by simp [encodeRow, entryId]),
        Option.none_or]
    obtain ⟨s, ty, ts, tid, cid, ev⟩ := e
    simp_all [decodeRow, encodeRow, entryId]

/-- C2 witness: The round trip at a concrete valid entry on empty
backends. -/
theorem c2_round_trip_witness :
    inMemoryRetrieve
        (inMemoryStore [] ⟨"a", "t", 0, none, none, some []⟩).1
        (inMemoryStore [] ⟨"a", "t", 0, none, none, some []⟩).2 =
      some ⟨"a", "t", 0, none, none, some []⟩ ∧
    redisRetrieve
        (redisStore [] ⟨"a", "t", 0, none, none, some []⟩).1
        (redisStore [] ⟨"a", "t", 0, none, none, some []⟩).2 =
      some ⟨"a", "t", 0, none, none, some []⟩ ∧
    sqliteStore [] ⟨"a", "t", 0, none, none, some []⟩ =
      .ok (entryId ⟨"a", "t", 0, none, none, some []⟩,
           sqliteStoreState [] ⟨"a", "t", 0, none, none, some []⟩) ∧
    sqliteRetrieve (sqliteStoreState [] ⟨"a", "t", 0, none, none, some []⟩)
        (entryId ⟨"a", "t", 0, none, none, some []⟩) =
      some ⟨"a", "t", 0, none, none, some []⟩ :=
  c2_round_trip [] [] [] ⟨"a", "t", 0, none, none, some []⟩
    ⟨by simp, by simp, by simp⟩ (by simp)

/-- C9: Immutability frame: no operation mutates a previously stored
entry.  `retrieve` and `search` are reads (their models are functions of
the state returning no new state, as the code only queries), and a
`store` whose derived identifier differs from `i` — whether it succeeds
or fails — leaves the entry retrievable under `i` exactly as it was, on
all three backends. -/
theorem c9_store_frame (st : MemState) (rst : RedisState) (tbl : Table)
    (e : MemoryEntry) (i : String) (h : entryId e ≠ i) :
    inMemoryRetrieve (inMemoryStore st e).1 i = inMemoryRetrieve st i ∧
    redisRetrieve (redisStore rst e).1 i = redisRetrieve rst i ∧
    sqliteRetrieve (sqliteStoreState tbl e) i = sqliteRetrieve tbl i := by
  have h' : e.source ++ "_" ++ tsRender e.timestamp ≠ i := by
    simpa [entryId] using h
  refine ⟨?_, ?_, ?_⟩
  · unfold inMemoryRetrieve inMemoryStore
    rw [find?_dictInsert_ne _ _ _ _ h']
  · unfold redisRetrieve redisStore
    rw [find?_dictInsert_ne _ _ _ _ h']
  · unfold sqliteStoreState sqliteStore
    by_cases hc :
        (tbl.any fun r => r.id == e.source ++ "_" ++ tsRender e.timestamp)
          = true
    · rw [if_pos hc]
    · rw [if_neg hc]
      unfold sqliteRetrieve
      rw [List.find?_append,
          List.find?_cons_of_neg _ (by simpa using h'),
          List.find?_nil, Option.or_none]

/-- C9 witness: Storing a second entry with a different identifier
leaves the first entry retrievable unchanged, on all three backends. -/
theorem c9_store_frame_witness :
    inMemoryRetrieve
        (inMemoryStore [("a_0.0", ⟨"a", "t", 0, none, none, none⟩)]
          ⟨"b", "t2", 1, none, none, none⟩).1 "a_0.0" =
      inMemoryRetrieve [("a_0.0", ⟨"a", "t", 0, none, none, none⟩)] "a_0.0" ∧
    redisRetrieve
        (redisStore [("a_0.0", ⟨"a", "t", 0, none, none, none⟩)]
          ⟨"b", "t2", 1, none, none, none⟩).1 "a_0.0" =
      redisRetrieve [("a_0.0", ⟨"a", "t", 0, none, none, none⟩)] "a_0.0" ∧
    sqliteRetrieve
        (sqliteStoreState [⟨"a_0.0", "a", "t", 0, none, none, []⟩]
          ⟨"b", "t2", 1, none, none, none⟩) "a_0.0" =
      sqliteRetrieve [⟨"a_0.0", "a", "t", 0, none, none, []⟩] "a_0.0" :=
  c9_store_frame [("a_0.0", ⟨"a", "t", 0, none, none, none⟩)]
    [("a_0.0", ⟨"a", "t", 0, none, none, none⟩)]
    [⟨"a_0.0", "a", "t", 0, none, none, []⟩]
    ⟨"b", "t2", 1, none, none, none⟩ "a_0.0" (by decide)

/-- The two textually duplicated matching predicates of the Redis and
in-memory backends are the same function. -/
theorem redisMatches_eq_memMatches : redisMatches = memMatches := rfl

/-- The in-memory (and Redis) matching predicate decides exactly the
spec's criteria semantics, provided no string criterion is the empty
string (that degenerate case is settled separately: it is treated as an
omitted criterion). -/
theorem memMatches_iff_spec (c : Criteria) (e : MemoryEntry)
    (h1 : c.source ≠ some "") (h2 : c.type ≠ some "")
    (h3 : c.thread_id ≠ some "") (h4 : c.conversation_id ≠ some "") :
    memMatches c e = true ↔ SpecMatches c e := by
  obtain ⟨os, ot, oth, oc, ost, oet⟩ := c
  simp only [memMatches, SpecMatches, Bool.and_eq_true]
  simp only at h1 h2 h3 h4
  cases os <;> cases ot <;> cases oth <;> cases oc <;> cases ost <;>
    cases oet <;> simp_all [Nat.not_lt] <;> tauto

/-- The SQLite `WHERE` clause decides exactly the spec's criteria
semantics on the decoded entry, under the same proviso on empty-string
criteria. -/
theorem rowMatches_iff_spec (c : Criteria) (r : Row)
    (h1 : c.source ≠ some "") (h2 : c.type ≠ some "")
    (h3 : c.thread_id ≠ some "") (h4 : c.conversation_id ≠ some "") :
    rowMatches c r = true ↔ SpecMatches c (decodeRow r) := by
  obtain ⟨os, ot, oth, oc, ost, oet⟩ := c
  simp only [rowMatches, SpecMatches, decodeRow, Bool.and_eq_true]
  simp only at h1 h2 h3 h4
  cases os <;> cases ot <;> cases oth <;> cases oc <;> cases ost <;>
    cases oet <;> simp_all [Nat.not_lt] <;> tauto

/-- C5: Search AND semantics: an entry is returned by `search` exactly
when it is stored and satisfies every supplied criterion — `source`,
`type`, `thread_id`, `conversation_id` by exact equality,
`start_time`/`end_time` as inclusive bounds on `timestamp` — and omitted
criteria impose no filter (`SpecMatches` states this from the spec's
words).  Supplied string criteria are assumed non-empty; the
empty-string degenerate case is the subject of the separate
treated-as-omitted property.  For the Redis backend the state is
assumed duplicate-free with colon-free identifiers, so that the
`split(":")[1]` key reconstruction retrieves every stored entry: the
search then raises nothing, returns exactly the stored values accepted
by its criteria predicate, and an entry is among them exactly under the
spec's semantics. -/
theorem c5_search_and_semantics (c : Criteria) (st : MemState) (tbl : Table)
    (rst : RedisState) (e : MemoryEntry)
    (h1 : c.source ≠ some "") (h2 : c.type ≠ some "")
    (h3 : c.thread_id ≠ some "") (h4 : c.conversation_id ≠ some "")
    (hnd : (rst.map Prod.fst).Nodup)
    (hcol : ∀ p ∈ rst, redisKeyId p.1 = p.1) :
    (e ∈ inMemorySearch c st ↔
      e ∈ st.map (fun p => p.2) ∧ SpecMatches c e) ∧
    (e ∈ sqliteSearch c tbl ↔ e ∈ tbl.map decodeRow ∧ SpecMatches c e) ∧
    (redisSearch c rst =
        .ok (((rst.map (fun p => p.2)).filter (redisMatches c)).map some) ∧
      (some e ∈ ((rst.map (fun p => p.2)).filter (redisMatches c)).map some ↔
        e ∈ rst.map (fun p => p.2) ∧ SpecMatches c e)) := by
  refine ⟨?_, ?_, ?_, ?_⟩
  · unfold inMemorySearch
    rw [List.mem_filter]
    exact and_congr Iff.rfl (memMatches_iff_spec c e h1 h2 h3 h4)
  · unfold sqliteSearch
    simp only [List.mem_map, List.mem_filter]
    constructor
    · rintro ⟨r, ⟨hr, hm⟩, hre⟩
      exact ⟨⟨r, hr, hre⟩,
        hre ▸ (rowMatches_iff_spec c r h1 h2 h3 h4).mp hm⟩
    · rintro ⟨⟨r, hr, hre⟩, hsm⟩
      exact ⟨r, ⟨hr, (rowMatches_iff_spec c r h1 h2 h3 h4).mpr
        (hre ▸ hsm)⟩, hre⟩
  · unfold redisSearch
    exact redisSearchLoop_keys c rst rst (redisRetrieve_keyId rst hnd hcol)
  · have hmm : some e ∈
        ((rst.map (fun p => p.2)).filter (redisMatches c)).map some ↔
        e ∈ (rst.map (fun p => p.2)).filter (redisMatches c) := by
      simp
    rw [hmm, List.mem_filter, redisMatches_eq_memMatches]
    exact and_congr Iff.rfl (memMatches_iff_spec c e h1 h2 h3 h4)

/-- C5 witness: the AND semantics at a concrete criteria set and
concrete one-entry backend states (colon-free Redis identifier). -/
theorem c5_search_and_semantics_witness :
    ((⟨"a", "t", 0, none, none, none⟩ : MemoryEntry) ∈
        inMemorySearch {source := some "a", type := some "t"}
          [("a_0.0", ⟨"a", "t", 0, none, none, none⟩)] ↔
      (⟨"a", "t", 0, none, none, none⟩ : MemoryEntry) ∈
          [("a_0.0", (⟨"a", "t", 0, none, none, none⟩ : MemoryEntry))].map
            (fun p => p.2) ∧
        SpecMatches {source := some "a", type := some "t"}
          ⟨"a", "t", 0, none, none, none⟩) ∧
    ((⟨"a", "t", 0, none, none, some []⟩ : MemoryEntry) ∈
        sqliteSearch {source := some "a", type := some "t"}
          [⟨"a_0.0", "a", "t", 0, none, none, []⟩] ↔
      (⟨"a", "t", 0, none, none, some []⟩ : MemoryEntry) ∈
          [(⟨"a_0.0", "a", "t", 0, none, none, []⟩ : Row)].map decodeRow ∧
        SpecMatches {source := some "a", type := some "t"}
          ⟨"a", "t", 0, none, none, some []⟩) ∧
    (redisSearch {source := some "a", type := some "t"}
        [("a_0.0", ⟨"a", "t", 0, none, none, none⟩)] =
      .ok ((([("a_0.0",
            (⟨"a", "t", 0, none, none, none⟩ : MemoryEntry))].map
              (fun p => p.2)).filter
            (redisMatches {source := some "a", type := some "t"})).map
          some)) ∧
    (some (⟨"a", "t", 0, none, none, none⟩ : MemoryEntry) ∈
        (([("a_0.0",
            (⟨"a", "t", 0, none, none, none⟩ : MemoryEntry))].map
              (fun p => p.2)).filter
            (redisMatches {source := some "a", type := some "t"})).map
          some ↔
      (⟨"a", "t", 0, none, none, none⟩ : MemoryEntry) ∈
          [("a_0.0", (⟨"a", "t", 0, none, none, none⟩ : MemoryEntry))].map
            (fun p => p.2) ∧
        SpecMatches {source := some "a", type := some "t"}
          ⟨"a", "t", 0, none, none, none⟩) := by
  have h := c5_search_and_semantics {source := some "a", type := some "t"}
    [("a_0.0", ⟨"a", "t", 0, none, none, none⟩)]
    [⟨"a_0.0", "a", "t", 0, none, none, []⟩]
    [("a_0.0", ⟨"a", "t", 0, none, none, none⟩)]
    ⟨"a", "t", 0, none, none, none⟩
    (by simp) (by simp) (by simp) (by simp) (by simp)
    (by intro p hp
        simp only [List.mem_singleton] at hp
        subst hp
        rfl)
  have h' := c5_search_and_semantics {source := some "a", type := some "t"}
    [("a_0.0", ⟨"a", "t", 0, none, none, none⟩)]
    [⟨"a_0.0", "a", "t", 0, none, none, []⟩]
    [("a_0.0", ⟨"a", "t", 0, none, none, none⟩)]
    ⟨"a", "t", 0, none, none, some []⟩
    (by simp) (by simp) (by simp) (by simp) (by simp)
    (by intro p hp
        simp only [List.mem_singleton] at hp
        subst hp
        rfl)
  exact ⟨h.1, h'.2.1, h.2.2.1, h.2.2.2⟩

theorem map_id_of_mem {α : Type} (l : List α) (f : α → α)
    (h : ∀ a ∈ l, f a = a) : l.map f = l := by
  induction l with
  | nil => rfl
  | cons hd tl ih => simp_all

/-- Decoding the row the SQLite backend stores for an entry gives the
entry back, provided its payload is an actual mapping (an absent payload
comes back as the empty mapping instead). -/
theorem decode_encode (e : MemoryEntry) (h : e.extracted_values ≠ none) :
    decodeRow (encodeRow e) = e := by
  obtain ⟨m, hm⟩ := Option.ne_none_iff_exists'.mp h
  obtain ⟨s, ty, ts, tid, cid, ev⟩ := e
  simp_all [decodeRow, encodeRow]

/-- Storing a sequence whose derived identifiers are fresh and pairwise
distinct appends the corresponding rows to the SQLite table in order. -/
theorem sqliteStoreList_fresh (es : List MemoryEntry) (tbl : Table)
    (hfresh : ∀ e ∈ es, entryId e ∉ tbl.map Row.id)
    (hnd : (es.map entryId).Nodup) :
    sqliteStoreList es tbl = tbl ++ es.map encodeRow := by
  induction es generalizing tbl with
  | nil => simp [sqliteStoreList]
  | cons e tl ih =>
    have hfe : entryId e ∉ tbl.map Row.id := hfresh e (by simp)
    have hany :
        (tbl.any fun r => r.id == e.source ++ "_" ++ tsRender e.timestamp)
          = false := by
      rw [List.any_eq_false]
      intro r hr hc
      exact hfe (List.mem_map.mpr ⟨r, hr, by simpa [entryId] using hc⟩)
    have hstate : sqliteStoreState tbl e = tbl ++ [encodeRow e] := by
      unfold sqliteStoreState sqliteStore
      rw [if_neg (by simp [hany])]
      rfl
    simp only [List.map_cons, List.nodup_cons] at hnd
    have hstep : sqliteStoreList (e :: tl) tbl =
        sqliteStoreList tl (sqliteStoreState tbl e) := rfl
    rw [hstep, hstate, ih (tbl ++ [encodeRow e]) ?fr hnd.2]
    · simp
    case fr =>
      intro e' he'
      rw [List.map_append]
      intro hmem
      rcases List.mem_append.mp hmem with hL | hR
      · exact hfresh e' (by simp [he']) hL
      · have : entryId e' = entryId e := by
          simpa [encodeRow] using hR
        exact hnd.1 (this ▸ List.mem_map_of_mem entryId he')

/-- Storing a sequence whose derived identifiers are fresh and pairwise
distinct appends the corresponding pairs to the in-memory dictionary in
order. -/
theorem inMemoryStoreList_fresh (es : List MemoryEntry) (st : MemState)
    (hfresh : ∀ e ∈ es, entryId e ∉ st.map Prod.fst)
    (hnd : (es.map entryId).Nodup) :
    inMemoryStoreList es st = st ++ es.map (fun e => (entryId e, e)) := by
  induction es generalizing st with
  | nil => simp [inMemoryStoreList]
  | cons e tl ih =>
    have hfe : entryId e ∉ st.map Prod.fst := hfresh e (by simp)
    have hany :
        (st.any fun p => p.1 == e.source ++ "_" ++ tsRender e.timestamp)
          = false := by
      rw [List.any_eq_false]
      intro p hp hc
      exact hfe (List.mem_map.mpr ⟨p, hp, by simpa [entryId] using hc⟩)
    have hstate : (inMemoryStore st e).1 = st ++ [(entryId e, e)] := by
      unfold inMemoryStore dictInsert
      rw [if_neg (by simp [hany])]
      rfl
    simp only [List.map_cons, List.nodup_cons] at hnd
    have hstep : inMemoryStoreList (e :: tl) st =
        inMemoryStoreList tl (inMemoryStore st e).1 := rfl
    rw [hstep, hstate, ih (st ++ [(entryId e, e)]) ?fr hnd.2]
    · simp
    case fr =>
      intro e' he'
      rw [List.map_append]
      intro hmem
      rcases List.mem_append.mp hmem with hL | hR
      · exact hfresh e' (by simp [he']) hL
      · have : entryId e' = entryId e := by simpa using hR
        exact hnd.1 (this ▸ List.mem_map_of_mem entryId he')

/-- C1 counterexample: The claim fails on a sequence of two
well-formed entries sharing source and timestamp: their identifiers
collide, the in-memory backend overwrites (keeping the second entry),
but the SQLite backend's plain `INSERT` against the `id` primary key
raises `IntegrityError` and rolls back (keeping the first), so
`search(source="a")` returns different entries from the two backends. -/
theorem c1_counterexample :
    sqliteSearch {source := some "a"}
        (sqliteStoreList [⟨"a", "t1", 0, none, none, some []⟩,
          ⟨"a", "t2", 0, none, none, some []⟩] []) ≠
      inMemorySearch {source := some "a"}
        (inMemoryStoreList [⟨"a", "t1", 0, none, none, some []⟩,
          ⟨"a", "t2", 0, none, none, some []⟩] []) := by
  have hL : sqliteSearch {source := some "a"}
      (sqliteStoreList [⟨"a", "t1", 0, none, none, some []⟩,
        ⟨"a", "t2", 0, none, none, some []⟩] []) =
      [⟨"a", "t1", 0, none, none, some []⟩] := rfl
  have hR : inMemorySearch {source := some "a"}
      (inMemoryStoreList [⟨"a", "t1", 0, none, none, some []⟩,
        ⟨"a", "t2", 0, none, none, some []⟩] []) =
      [⟨"a", "t2", 0, none, none, some []⟩] := rfl
  rw [hL, hR]
  intro h
  have h1 : (⟨"a", "t1", 0, none, none, some []⟩ : MemoryEntry) =
      ⟨"a", "t2", 0, none, none, some []⟩ := by
    injection h
  have := congrArg MemoryEntry.type h1
  exact absurd this (by decide)

/-- C1 (amended): Cross-backend consistency of search: for every
sequence of well-formed entries *whose derived identifiers are pairwise
distinct* (so that no SQLite `INSERT` fails) and every non-empty source
value `X` (the empty string is treated as an omitted criterion), both
backends return from `search(source="X")` exactly the stored entries
whose `source` equals `X` — in particular the same entries from both. -/
theorem c1_cross_backend_search (es : List MemoryEntry) (X : String)
    (hw : ∀ e ∈ es, ValidEntry e) (hnd : (es.map entryId).Nodup)
    (hX : X ≠ "") :
    sqliteSearch {source := some X} (sqliteStoreList es []) =
      es.filter (fun e => e.source == X) ∧
    inMemorySearch {source := some X} (inMemoryStoreList es []) =
      es.filter (fun e => e.source == X) := by
  have hXb : (X == "") = false := by simp [hX]
  have hsql : sqliteStoreList es [] = es.map encodeRow := by
    simpa using sqliteStoreList_fresh es [] (by simp) hnd
  have hmem : inMemoryStoreList es [] =
      es.map (fun e => (entryId e, e)) := by
    simpa using inMemoryStoreList_fresh es [] (by simp) hnd
  constructor
  · rw [hsql]
    unfold sqliteSearch
    rw [filter_of_map, List.map_map]
    have hpred : ∀ a ∈ es,
        rowMatches {source := some X} (encodeRow a) = (a.source == X) := by
      intro a _
      simp [rowMatches, encodeRow, hXb]
    rw [List.filter_congr hpred]
    exact map_id_of_mem _ _ (fun a ha =>
      decode_encode a (hw a (List.mem_of_mem_filter ha)).2.2)
  · rw [hmem]
    unfold inMemorySearch
    rw [List.map_map]
    have hid : es.map ((fun p : String × MemoryEntry => p.2) ∘
        (fun e => (entryId e, e))) = es :=
      map_id_of_mem es _ (fun a _ => rfl)
    rw [hid]
    apply List.filter_congr
    intro a _
    simp [memMatches, hXb]

/-- C1 witness: The amended consistency at a concrete two-entry
sequence with distinct identifiers. -/
theorem c1_cross_backend_search_witness :
    sqliteSearch {source := some "a"}
        (sqliteStoreList [⟨"a", "t1", 0, none, none, some []⟩,
          ⟨"b", "t2", 1, none, none, some []⟩] []) =
      [⟨"a", "t1", 0, none, none, some []⟩,
       ⟨"b", "t2", 1, none, none, some []⟩].filter
        (fun e => e.source == "a") ∧
    inMemorySearch {source := some "a"}
        (inMemoryStoreList [⟨"a", "t1", 0, none, none, some []⟩,
          ⟨"b", "t2", 1, none, none, some []⟩] []) =
      [⟨"a", "t1", 0, none, none, some []⟩,
       ⟨"b", "t2", 1, none, none, some []⟩].filter
        (fun e => e.source == "a") :=
  c1_cross_backend_search
    [⟨"a", "t1", 0, none, none, some []⟩,
     ⟨"b", "t2", 1, none, none, some []⟩] "a"
    (by intro e he
        simp only [List.mem_cons, List.mem_singleton] at he
        rcases he with h | h | h
        · subst h; exact ⟨by simp, by simp, by simp⟩
        · subst h; exact ⟨by simp, by simp, by simp⟩
        · cases h)
    (by decide) (by decide)

/-- C3 counterexample: In the SQLite backend — which is keyed by the
derived identifier (`id TEXT PRIMARY KEY`) — storing a second entry with
the same source and the same timestamp does not overwrite: the plain
`INSERT` raises `IntegrityError` (so no identifier is returned for the
second entry), and a retrieve of the collided identifier returns the
first entry, not the second. -/
theorem c3_counterexample :
    sqliteStore (sqliteStoreState [] ⟨"b", "t1", 0, none, none, some []⟩)
        ⟨"b", "t2", 0, none, none, some []⟩ =
      .error "IntegrityError: UNIQUE constraint failed: memory_entries.id" ∧
    sqliteRetrieve (sqliteStoreState [] ⟨"b", "t1", 0, none, none, some []⟩)
        ("b" ++ "_" ++ tsRender 0) =
      some ⟨"b", "t1", 0, none, none, some []⟩ ∧
    sqliteRetrieve (sqliteStoreState [] ⟨"b", "t1", 0, none, none, some []⟩)
        ("b" ++ "_" ++ tsRender 0) ≠
      some ⟨"b", "t2", 0, none, none, some []⟩ := by
  refine ⟨rfl, rfl, ?_⟩
  intro h
  have h1 : (⟨"b", "t1", 0, none, none, some []⟩ : MemoryEntry) =
      ⟨"b", "t2", 0, none, none, some []⟩ := by
    have h0 : some (⟨"b", "t1", 0, none, none, some []⟩ : MemoryEntry) =
        some ⟨"b", "t2", 0, none, none, some []⟩ := by
      rw [← h]
      rfl
    injection h0
  have := congrArg MemoryEntry.type h1
  exact absurd this (by decide)

/-- C3 (amended): Identifier collision: two entries sharing `source`
and fractional-second timestamp derive the same identifier on every
backend.  In the backends keyed by a plain map — in-process and
remote-kv — the second store overwrites the first, and a subsequent
retrieve of that identifier returns the second entry.  The
embedded-relational backend, though also keyed by the identifier
(primary key), instead rejects the second store with an integrity error,
and retrieve returns the first entry. -/
theorem c3_collision_overwrite (st : MemState) (rst : RedisState)
    (tbl : Table) (e1 e2 : MemoryEntry) (hs : e1.source = e2.source)
    (ht : e1.timestamp = e2.timestamp) (hv : e1.extracted_values ≠ none)
    (hfresh : ∀ r ∈ tbl, r.id ≠ entryId e1) :
    (inMemoryStore (inMemoryStore st e1).1 e2).2 = (inMemoryStore st e1).2 ∧
    inMemoryRetrieve (inMemoryStore (inMemoryStore st e1).1 e2).1
        (inMemoryStore st e1).2 = some e2 ∧
    (redisStore (redisStore rst e1).1 e2).2 = (redisStore rst e1).2 ∧
    redisRetrieve (redisStore (redisStore rst e1).1 e2).1
        (redisStore rst e1).2 = some e2 ∧
    sqliteStore (sqliteStoreState tbl e1) e2 =
      .error "IntegrityError: UNIQUE constraint failed: memory_entries.id" ∧
    sqliteRetrieve (sqliteStoreState tbl e1) (entryId e1) = some e1 := by
  obtain ⟨m, hm⟩ := Option.ne_none_iff_exists'.mp hv
  have hfresh' : ∀ r ∈ tbl,
      r.id ≠ e1.source ++ "_" ++ tsRender e1.timestamp := by
    simpa [entryId] using hfresh
  have hany :
      (tbl.any fun r => r.id == e1.source ++ "_" ++ tsRender e1.timestamp)
        = false := by
    rw [List.any_eq_false]
    intro r hr
    simpa using hfresh' r hr
  have hstate : sqliteStoreState tbl e1 = tbl ++ [encodeRow e1] := by
    unfold sqliteStoreState sqliteStore
    rw [if_neg (by simp [hany])]
    rfl
  refine ⟨?_, ?_, ?_, ?_, ?_, ?_⟩
  · show e2.source ++ "_" ++ tsRender e2.timestamp =
      e1.source ++ "_" ++ tsRender e1.timestamp
    rw [hs, ht]
  · unfold inMemoryRetrieve inMemoryStore
    rw [hs, ht, find?_dictInsert]
    rfl
  · show e2.source ++ "_" ++ tsRender e2.timestamp =
      e1.source ++ "_" ++ tsRender e1.timestamp
    rw [hs, ht]
  · unfold redisRetrieve redisStore
    rw [hs, ht, find?_dictInsert]
    rfl
  · rw [hstate]
    unfold sqliteStore
    rw [if_pos]
    rw [List.any_append]
    have : ((encodeRow e1).id ==
        e2.source ++ "_" ++ tsRender e2.timestamp) = true := by
      simp [encodeRow, entryId, hs, ht]
    simp [List.any_cons, this]
  · rw [hstate]
    unfold sqliteRetrieve
    rw [List.find?_append,
        List.find?_eq_none.mpr (fun r hr => by
          simpa [entryId] using hfresh' r hr),
        List.find?_cons_of_pos _ (by simp [encodeRow, entryId]),
        Option.none_or]
    obtain ⟨s, ty, ts, tid, cid, ev⟩ := e1
    simp_all [decodeRow, encodeRow, entryId]

/-- C3 witness: The amended collision behaviour at two concrete
colliding entries on initially empty backends. -/
theorem c3_collision_overwrite_witness :
    (inMemoryStore
        (inMemoryStore [] ⟨"c", "t1", 0, none, none, some []⟩).1
        ⟨"c", "t2", 0, none, none, some []⟩).2 =
      (inMemoryStore [] ⟨"c", "t1", 0, none, none, some []⟩).2 ∧
    inMemoryRetrieve
        (inMemoryStore
          (inMemoryStore [] ⟨"c", "t1", 0, none, none, some []⟩).1
          ⟨"c", "t2", 0, none, none, some []⟩).1
        (inMemoryStore [] ⟨"c", "t1", 0, none, none, some []⟩).2 =
      some ⟨"c", "t2", 0, none, none, some []⟩ ∧
    (redisStore (redisStore [] ⟨"c", "t1", 0, none, none, some []⟩).1
        ⟨"c", "t2", 0, none, none, some []⟩).2 =
      (redisStore [] ⟨"c", "t1", 0, none, none, some []⟩).2 ∧
    redisRetrieve
        (redisStore (redisStore [] ⟨"c", "t1", 0, none, none, some []⟩).1
          ⟨"c", "t2", 0, none, none, some []⟩).1
        (redisStore [] ⟨"c", "t1", 0, none, none, some []⟩).2 =
      some ⟨"c", "t2", 0, none, none, some []⟩ ∧
    sqliteStore (sqliteStoreState [] ⟨"c", "t1", 0, none, none, some []⟩)
        ⟨"c", "t2", 0, none, none, some []⟩ =
      .error "IntegrityError: UNIQUE constraint failed: memory_entries.id" ∧
    sqliteRetrieve (sqliteStoreState [] ⟨"c", "t1", 0, none, none, some []⟩)
        (entryId ⟨"c", "t1", 0, none, none, some []⟩) =
      some ⟨"c", "t1", 0, none, none, some []⟩ :=
  c3_collision_overwrite [] [] [] ⟨"c", "t1", 0, none, none, some []⟩
    ⟨"c", "t2", 0, none, none, some []⟩ rfl rfl (by simp) (by simp)

/-- C4 counterexample: No validation exists: the facade's `store`
builds the entry from its arguments unchecked and every backend persists
it, so a store with an empty `source` succeeds, returns an identifier
and leaves the entry retrievable — no `InvalidEntry` error is raised
anywhere in the code. -/
theorem c4_counterexample :
    sharedStoreMem [] "" "t" (some []) none none 0 =
      ([("" ++ "_" ++ tsRender 0, ⟨"", "t", 0, none, none, some []⟩)],
       "" ++ "_" ++ tsRender 0) ∧
    inMemoryRetrieve (sharedStoreMem [] "" "t" (some []) none none 0).1
        (sharedStoreMem [] "" "t" (some []) none none 0).2 =
      some ⟨"", "t", 0, none, none, some []⟩ ∧
    sharedStoreSqlite [] "" "t" (some []) none none 0 =
      .ok ("" ++ "_" ++ tsRender 0,
           [⟨"" ++ "_" ++ tsRender 0, "", "t", 0, none, none, []⟩]) ∧
    sharedStoreRedis [] "" "t" (some []) none none 0 =
      ([("" ++ "_" ++ tsRender 0, ⟨"", "t", 0, none, none, some []⟩)],
       "" ++ "_" ++ tsRender 0) :=
  ⟨rfl, rfl, rfl, rfl⟩

/-- C4 (amended): Neither the facade nor any backend validates
`source` or `type`: a store call with an empty `source` or an empty
`type` is accepted without any error, the entry is persisted, and it is
retrievable under the returned identifier (for SQLite whenever the
derived identifier is fresh; the `NOT NULL` columns accept the empty
string).  No `InvalidEntry` error exists in the implementation. -/
theorem c4_empty_accepted (st : MemState) (rst : RedisState) (tbl : Table)
    (source ty : String) (ev : Option (List (String × Json)))
    (tid cid : Option String) (now : Nat)
    (hempty : source = "" ∨ ty = "")
    (hfresh : ∀ r ∈ tbl, r.id ≠ source ++ "_" ++ tsRender now) :
    inMemoryRetrieve (sharedStoreMem st source ty ev tid cid now).1
        (sharedStoreMem st source ty ev tid cid now).2 =
      some ⟨source, ty, now, tid, cid, ev⟩ ∧
    redisRetrieve (sharedStoreRedis rst source ty ev tid cid now).1
        (sharedStoreRedis rst source ty ev tid cid now).2 =
      some ⟨source, ty, now, tid, cid, ev⟩ ∧
    sharedStoreSqlite tbl source ty ev tid cid now =
      .ok (source ++ "_" ++ tsRender now,
           tbl ++ [⟨source ++ "_" ++ tsRender now, source, ty, now,
                    tid, cid, ev.getD []⟩]) := by
  have hany : (tbl.any fun r => r.id == source ++ "_" ++ tsRender now)
      = false := by
    rw [List.any_eq_false]
    intro r hr
    simpa using hfresh r hr
  refine ⟨?_, ?_, ?_⟩
  · unfold sharedStoreMem inMemoryRetrieve inMemoryStore
    rw [find?_dictInsert]
    rfl
  · unfold sharedStoreRedis redisRetrieve redisStore
    rw [find?_dictInsert]
    rfl
  · unfold sharedStoreSqlite sqliteStore
    rw [if_neg (by simp [hany])]

/-- C4 witness: The amended acceptance at a concrete empty-source
store on empty backends. -/
theorem c4_empty_accepted_witness :
    inMemoryRetrieve (sharedStoreMem [] "" "t" (some []) none none 0).1
        (sharedStoreMem [] "" "t" (some []) none none 0).2 =
      some ⟨"", "t", 0, none, none, some []⟩ ∧
    redisRetrieve (sharedStoreRedis [] "" "t" (some []) none none 0).1
        (sharedStoreRedis [] "" "t" (some []) none none 0).2 =
      some ⟨"", "t", 0, none, none, some []⟩ ∧
    sharedStoreSqlite [] "" "t" (some []) none none 0 =
      .ok ("" ++ "_" ++ tsRender 0,
           [] ++ [⟨"" ++ "_" ++ tsRender 0, "", "t", 0, none, none,
                   (some []).getD []⟩]) :=
  c4_empty_accepted [] [] [] "" "t" (some []) none none 0
    (Or.inl rfl) (by simp)
